import Mathlib

/-!
Verification of the AudiobookDisc playback controller (`src/audiotest2.py`).

Times (Python floats holding seconds) are modelled as rationals (`Rat`):
every comparison and arithmetic operation the program performs on them is
exact on the float values it actually handles, and `Rat` keeps the model
executable and decidable.  Python exceptions are modelled with an explicit
`Except PyExc` result; a `try`/`except` block becomes a `match` on that
result.  The outcome of each real I/O action (a file or socket write) is an
explicit parameter of type `WriteOutcome`, so that failing and succeeding
environments can both be examined.
-/

/-- A chapter record as built by `get_metadata`: start time, end time and
title, with times in seconds. -/
structure Chapter where
  start_time : Rat
  end_time : Rat
  title : String
deriving DecidableEq, Repr

/-- Embedding of `get_current_chapter(current_time, chapters)`: scan the
chapter list in order and return the title of the first chapter with
`start_time <= current_time < end_time`; if none matches, return the
sentinel string. -/
def get_current_chapter (current_time : Rat) : List Chapter → String
  | [] => "Unknown Chapter"
  | c :: rest =>
    if current_time ≥ c.start_time ∧ current_time < c.end_time then c.title
    else get_current_chapter current_time rest

/-- Embedding of `get_next_chapter_time(current_time, chapters)`: return the
start time of the first chapter in list order whose start is strictly after
`current_time`; if none, return `current_time` unchanged. -/
def get_next_chapter_time (current_time : Rat) : List Chapter → Rat
  | [] => current_time
  | c :: rest =>
    if current_time < c.start_time then c.start_time
    else get_next_chapter_time current_time rest

/-- The scan inside `get_previous_chapter_time`: first chapter of the given
list whose start is strictly before `current_time`, else `current_time`. -/
def prevScan (current_time : Rat) : List Chapter → Rat
  | [] => current_time
  | c :: rest =>
    if current_time > c.start_time then c.start_time
    else prevScan current_time rest

/-- Embedding of `get_previous_chapter_time(current_time, chapters)`: iterate
over `reversed(chapters)` and return the first start strictly before
`current_time`; if none, return `current_time` unchanged. -/
def get_previous_chapter_time (current_time : Rat) (chapters : List Chapter) : Rat :=
  prevScan current_time chapters.reverse

/-- A list with a member satisfying a decidable predicate splits at its first
satisfying element. -/
lemma exists_first_match {α : Type} (p : α → Prop) [DecidablePred p] :
    ∀ (l : List α) (c : α), c ∈ l → p c →
      ∃ pre ch post, l = pre ++ ch :: post ∧ p ch ∧ ∀ d ∈ pre, ¬ p d := by
  intro l
  induction l with
  | nil => intro c hc; cases hc
  | cons a rest ih =>
    intro c hc hp
    by_cases ha : p a
    · exact ⟨[], a, rest, rfl, ha, by simp⟩
    · rcases List.mem_cons.mp hc with h | h
      · exact absurd (h ▸ hp) ha
      · obtain ⟨pre, ch, post, heq, hch, hpre⟩ := ih c h hp
        refine ⟨a :: pre, ch, post, by simp [heq], hch, ?_⟩
        intro d hd
        rcases List.mem_cons.mp hd with h' | h'
        · exact h' ▸ ha
        · exact hpre d h'

lemma get_current_chapter_of_no_match (t : Rat) :
    ∀ cs : List Chapter, (∀ c ∈ cs, ¬ (t ≥ c.start_time ∧ t < c.end_time)) →
      get_current_chapter t cs = "Unknown Chapter" := by
  intro cs
  induction cs with
  | nil => intro _; rfl
  | cons a rest ih =>
    intro h
    simp only [get_current_chapter]
    rw [if_neg (h a (List.mem_cons_self a rest))]
    exact ih fun c hc => h c (List.mem_cons_of_mem a hc)

lemma get_current_chapter_append (t : Rat) :
    ∀ (pre : List Chapter) (ch : Chapter) (post : List Chapter),
      (∀ d ∈ pre, ¬ (t ≥ d.start_time ∧ t < d.end_time)) →
      (t ≥ ch.start_time ∧ t < ch.end_time) →
      get_current_chapter t (pre ++ ch :: post) = ch.title := by
  intro pre
  induction pre with
  | nil =>
    intro ch post _ hch
    rw [List.nil_append]
    simp only [get_current_chapter]
    rw [if_pos hch]
  | cons a rest ih =>
    intro ch post hpre hch
    rw [List.cons_append]
    simp only [get_current_chapter]
    rw [if_neg (hpre a (List.mem_cons_self a rest))]
    exact ih ch post (fun d hd => hpre d (List.mem_cons_of_mem a hd)) hch

lemma get_next_chapter_time_of_no_match (t : Rat) :
    ∀ cs : List Chapter, (∀ c ∈ cs, ¬ t < c.start_time) →
      get_next_chapter_time t cs = t := by
  intro cs
  induction cs with
  | nil => intro _; rfl
  | cons a rest ih =>
    intro h
    simp only [get_next_chapter_time]
    rw [if_neg (h a (List.mem_cons_self a rest))]
    exact ih fun c hc => h c (List.mem_cons_of_mem a hc)

lemma get_next_chapter_time_append (t : Rat) :
    ∀ (pre : List Chapter) (ch : Chapter) (post : List Chapter),
      (∀ d ∈ pre, ¬ t < d.start_time) → t < ch.start_time →
      get_next_chapter_time t (pre ++ ch :: post) = ch.start_time := by
  intro pre
  induction pre with
  | nil =>
    intro ch post _ hch
    rw [List.nil_append]
    simp only [get_next_chapter_time]
    rw [if_pos hch]
  | cons a rest ih =>
    intro ch post hpre hch
    rw [List.cons_append]
    simp only [get_next_chapter_time]
    rw [if_neg (hpre a (List.mem_cons_self a rest))]
    exact ih ch post (fun d hd => hpre d (List.mem_cons_of_mem a hd)) hch

lemma get_next_chapter_time_min (t : Rat) :
    ∀ cs : List Chapter,
      cs.Pairwise (fun a b => a.start_time ≤ b.start_time) →
      ∀ c ∈ cs, t < c.start_time → get_next_chapter_time t cs ≤ c.start_time := by
  intro cs
  induction cs with
  | nil => intro _ c hc; cases hc
  | cons a rest ih =>
    intro hpw c hc hct
    have hpw' := List.pairwise_cons.mp hpw
    simp only [get_next_chapter_time]
    by_cases hta : t < a.start_time
    · rw [if_pos hta]
      rcases List.mem_cons.mp hc with h | h
      · exact le_of_eq (congrArg Chapter.start_time h.symm)
      · exact hpw'.1 c h
    · rw [if_neg hta]
      rcases List.mem_cons.mp hc with h | h
      · exact absurd (h ▸ hct) hta
      · exact ih hpw'.2 c h hct

lemma prevScan_of_no_match (t : Rat) :
    ∀ l : List Chapter, (∀ c ∈ l, ¬ t > c.start_time) → prevScan t l = t := by
  intro l
  induction l with
  | nil => intro _; rfl
  | cons a rest ih =>
    intro h
    simp only [prevScan]
    rw [if_neg (h a (List.mem_cons_self a rest))]
    exact ih fun c hc => h c (List.mem_cons_of_mem a hc)

lemma prevScan_append (t : Rat) :
    ∀ (pre : List Chapter) (ch : Chapter) (post : List Chapter),
      (∀ d ∈ pre, ¬ t > d.start_time) → t > ch.start_time →
      prevScan t (pre ++ ch :: post) = ch.start_time := by
  intro pre
  induction pre with
  | nil =>
    intro ch post _ hch
    rw [List.nil_append]
    simp only [prevScan]
    rw [if_pos hch]
  | cons a rest ih =>
    intro ch post hpre hch
    rw [List.cons_append]
    simp only [prevScan]
    rw [if_neg (hpre a (List.mem_cons_self a rest))]
    exact ih ch post (fun d hd => hpre d (List.mem_cons_of_mem a hd)) hch

/-- Outcome of one real write attempt (file write or socket write): the
operating system either accepts it or raises an error carrying a message. -/
inductive WriteOutcome where
  | ok : WriteOutcome
  | fail : String → WriteOutcome
deriving DecidableEq, Repr

/-- The Python exceptions the program can encounter in the modelled code
paths. -/
inductive PyExc where
  | fileNotFound : PyExc
  | unpicklingError : PyExc
  | oSError : String → PyExc
deriving DecidableEq, Repr

/-- Message text attached to an exception, as interpolated into the
`logging.error` line of `send_ipc_command`. -/
def pyExcMessage : PyExc → String
  | .fileNotFound => "FileNotFoundError"
  | .unpicklingError => "UnpicklingError"
  | .oSError m => m

/-- Contents of the `playback_position.pkl` file: a pickle payload holding a
float, or bytes that `pickle.load` rejects. -/
inductive PickleData where
  | ratData : Rat → PickleData
  | garbage : PickleData
deriving DecidableEq, Repr

/-- State of the `playback_position.pkl` path on disk. -/
inductive StoreFile where
  | absent : StoreFile
  | file : PickleData → StoreFile
deriving DecidableEq, Repr

/-- `pickle.dump(position, f)`: serialising a float always succeeds and the
payload deserialises back to the same float. -/
def pickle_dump (x : Rat) : PickleData := .ratData x

/-- `pickle.load(f)`: returns the stored float, or raises
`UnpicklingError` on bytes that are not a valid pickle. -/
def pickle_load : PickleData → Except PyExc Rat
  | .ratData x => .ok x
  | .garbage => .error .unpicklingError

/-- `open('playback_position.pkl', 'rb')`: raises `FileNotFoundError` when
the path is absent, else yields the file's bytes. -/
def open_rb : StoreFile → Except PyExc PickleData
  | .absent => .error .fileNotFound
  | .file d => .ok d

/-- `open('playback_position.pkl', 'wb')` followed by writing `d`: the write
outcome decides between the new file contents and an `OSError`. -/
def open_wb (outcome : WriteOutcome) (d : PickleData) : Except PyExc StoreFile :=
  match outcome with
  | .ok => .ok (.file d)
  | .fail m => .error (.oSError m)

/-- Embedding of `load_playback_position()`: try to open and unpickle the
state file; the `except FileNotFoundError` clause turns exactly that
exception into the default `0`, and any other exception propagates. -/
def load_playback_position (f : StoreFile) : Except PyExc Rat :=
  match (open_rb f).bind pickle_load with
  | .ok x => .ok x
  | .error .fileNotFound => .ok 0
  | .error e => .error e

/-- Embedding of `save_playback_position(position)`: open the state file for
writing and dump the position; there is no `try`/`except`, so a write
failure propagates to the caller as the raised exception. -/
def save_playback_position (position : Rat) (outcome : WriteOutcome) :
    Except PyExc StoreFile :=
  open_wb outcome (pickle_dump position)

/-- One write to the mpv IPC socket path (open, write, flush): the outcome
decides between success and a raised `OSError`. -/
def channel_write (outcome : WriteOutcome) (_line : String) : Except PyExc Unit :=
  match outcome with
  | .ok => .ok ()
  | .fail m => .error (.oSError m)

/-- Embedding of `send_ipc_command(ipc_socket, command)`: write the command
line inside `try`; the bare `except Exception` clause absorbs every
exception and only logs it, so the function always returns (here: the list
of error-log lines it produced). -/
def send_ipc_command (outcome : WriteOutcome) (command : String) : List String :=
  match channel_write outcome (command ++ "\n") with
  | .ok _ => []
  | .error e => ["Error sending command to mpv: " ++ pyExcMessage e]

/-- Embedding of `handle_playback_controls(ipc_socket, key, current_time,
chapters)`: the fixed keymap, returning the command lines passed to
`send_ipc_command` in order. -/
def handle_playback_controls (key : Int) (current_time : Rat)
    (chapters : List Chapter) : List String :=
  if key = ('p'.toNat : Int) then ["cycle pause"]
  else if key = ('s'.toNat : Int) then ["stop", "no-screenshot"]
  else if key = ('f'.toNat : Int) then ["seek 30 relative"]
  else if key = ('b'.toNat : Int) then ["seek -30 relative"]
  else if key = ('n'.toNat : Int) then
    ["seek " ++ toString (get_next_chapter_time current_time chapters) ++ " absolute"]
  else if key = ('m'.toNat : Int) then
    ["seek " ++ toString (get_previous_chapter_time current_time chapters) ++ " absolute"]
  else []

/-- Python `int(x)` on a float: truncation toward zero. -/
def pyInt (x : Rat) : Int :=
  if 0 ≤ x then x.floor else x.ceil

/-- The per-session constants of `play_audiobook` fixed before its loop:
metadata, total duration, the loaded resume offset and the wall-clock
anchor `start_time`. -/
structure SessionEnv where
  title : String
  author : String
  chapters : List Chapter
  total_duration : Rat
  playback_position : Rat
  start_time : Rat
deriving DecidableEq, Repr

/-- The arguments fed to `display_info` in one tick. -/
structure DisplayInfo where
  title : String
  author : String
  current_time : Rat
  time_left : Rat
  chapter_time : Rat
  current_chapter : String
deriving DecidableEq, Repr

/-- Observable effects of one successful tick: the published display, the
command lines written to the IPC socket, and the error-log lines produced
by absorbed send failures. -/
structure TickOutput where
  display : DisplayInfo
  commands : List String
  error_logs : List String
deriving DecidableEq, Repr

/-- Embedding of one iteration of the `while True` loop of
`play_audiobook`: compute `current_time`, resolve the chapter, publish the
display, dispatch the pending key through `handle_playback_controls` (each
command written via `send_ipc_command`, whose failures are absorbed), then
run the periodic save, whose failure is NOT caught and raises out of the
tick.  `now` is the value of `time.time()` this tick, `key` the result of
`stdscr.getch()`, and the two outcomes stand for the operating system's
response to the socket writes and the state-file write of this tick. -/
def loop_tick (env : SessionEnv) (file : StoreFile) (now : Rat) (key : Int)
    (sendOutcome saveOutcome : WriteOutcome) :
    Except PyExc (TickOutput × StoreFile) :=
  let current_time := now - env.start_time + env.playback_position
  let time_left := env.total_duration - current_time
  let current_chapter := get_current_chapter current_time env.chapters
  let display : DisplayInfo :=
    ⟨env.title, env.author, current_time, time_left, env.total_duration,
      current_chapter⟩
  let commands := handle_playback_controls key current_time env.chapters
  let logs := (commands.map (send_ipc_command sendOutcome)).foldr (· ++ ·) []
  if pyInt current_time % 5 = 0 then
    match save_playback_position current_time saveOutcome with
    | .ok f2 => .ok (⟨display, commands, logs⟩, f2)
    | .error e => .error e
  else
    .ok (⟨display, commands, logs⟩, file)

/-- The two-chapter table used in the spec's test scenarios. -/
def demoChapters : List Chapter :=
  [⟨0, 300, "Ch1"⟩, ⟨300, 600, "Ch2"⟩]

/-- A concrete session over the demo table, anchored at wall-clock zero with
no resume offset. -/
def demoEnv : SessionEnv :=
  ⟨"The Dark Tower", "Stephen King", demoChapters, 600, 0, 0⟩

/-- C1: for every time `t` and chapter table, `get_current_chapter` returns
the sentinel "Unknown Chapter" when no chapter satisfies
`start <= t < end` (before the first chapter, in a gap, past the end, or an
empty table), and otherwise returns the title of the first chapter in table
order satisfying it — overlapping chapters resolve to the first match. -/
theorem get_current_chapter_correct (t : Rat) (cs : List Chapter) :
    ((∀ c ∈ cs, ¬ (c.start_time ≤ t ∧ t < c.end_time)) →
      get_current_chapter t cs = "Unknown Chapter") ∧
    (∀ c ∈ cs, c.start_time ≤ t → t < c.end_time →
      ∃ pre ch post, cs = pre ++ ch :: post ∧
        ch.start_time ≤ t ∧ t < ch.end_time ∧
        get_current_chapter t cs = ch.title ∧
        ∀ d ∈ pre, ¬ (d.start_time ≤ t ∧ t < d.end_time)) := by
  constructor
  · intro h
    exact get_current_chapter_of_no_match t cs h
  · intro c hc h1 h2
    obtain ⟨pre, ch, post, heq, hch, hpre⟩ :=
      exists_first_match (fun d => t ≥ d.start_time ∧ t < d.end_time) cs c hc ⟨h1, h2⟩
    refine ⟨pre, ch, post, heq, hch.1, hch.2, ?_, hpre⟩
    rw [heq]
    exact get_current_chapter_append t pre ch post hpre hch

/-- Witness for C1 at the spec's scenario table: `locate(700)` misses every
chapter and `locate(150)` hits the first chapter. -/
theorem get_current_chapter_correct_witness :
    get_current_chapter 700 demoChapters = "Unknown Chapter" ∧
    ∃ pre ch post, demoChapters = pre ++ ch :: post ∧
      ch.start_time ≤ (150 : Rat) ∧ (150 : Rat) < ch.end_time ∧
      get_current_chapter 150 demoChapters = ch.title ∧
      ∀ d ∈ pre, ¬ (d.start_time ≤ (150 : Rat) ∧ (150 : Rat) < d.end_time) :=
  ⟨(get_current_chapter_correct 700 demoChapters).1 (by decide),
   (get_current_chapter_correct 150 demoChapters).2 ⟨0, 300, "Ch1"⟩
     (by decide) (by decide) (by decide)⟩

/-- C4: `get_next_chapter_time` returns `t` unchanged when no chapter start
is strictly after `t`; otherwise it returns a value strictly greater than
`t`, namely the start of the first chapter in scan order whose start is
strictly after `t`, which under the ChapterIndex ordering invariant
(chapters sorted ascending by start, spec section 3) is the smallest such
start. -/
theorem get_next_chapter_time_correct (t : Rat) (cs : List Chapter) :
    ((∀ c ∈ cs, ¬ t < c.start_time) → get_next_chapter_time t cs = t) ∧
    (∀ c ∈ cs, t < c.start_time →
      t < get_next_chapter_time t cs ∧
      ∃ pre ch post, cs = pre ++ ch :: post ∧ t < ch.start_time ∧
        get_next_chapter_time t cs = ch.start_time ∧
        ∀ d ∈ pre, ¬ t < d.start_time) ∧
    (cs.Pairwise (fun a b => a.start_time ≤ b.start_time) →
      ∀ c ∈ cs, t < c.start_time → get_next_chapter_time t cs ≤ c.start_time) := by
  refine ⟨get_next_chapter_time_of_no_match t cs, ?_, get_next_chapter_time_min t cs⟩
  intro c hc hct
  obtain ⟨pre, ch, post, heq, hch, hpre⟩ :=
    exists_first_match (fun d => t < d.start_time) cs c hc hct
  have heval : get_next_chapter_time t cs = ch.start_time := by
    rw [heq]
    exact get_next_chapter_time_append t pre ch post hpre hch
  exact ⟨by rw [heval]; exact hch, pre, ch, post, heq, hch, heval, hpre⟩

/-- Witness for C4 at the spec's scenarios: `nextChapterStart(400) = 400`
(no chapter after), and at `t = 50` the scan yields a start strictly after
50 which is also minimal among qualifying starts. -/
theorem get_next_chapter_time_correct_witness :
    get_next_chapter_time 400 demoChapters = 400 ∧
    ((50 : Rat) < get_next_chapter_time 50 demoChapters ∧
      ∃ pre ch post, demoChapters = pre ++ ch :: post ∧
        (50 : Rat) < ch.start_time ∧
        get_next_chapter_time 50 demoChapters = ch.start_time ∧
        ∀ d ∈ pre, ¬ (50 : Rat) < d.start_time) ∧
    get_next_chapter_time 50 demoChapters ≤
      Chapter.start_time ⟨300, 600, "Ch2"⟩ :=
  ⟨(get_next_chapter_time_correct 400 demoChapters).1 (by decide),
   (get_next_chapter_time_correct 50 demoChapters).2.1 ⟨300, 600, "Ch2"⟩
     (by decide) (by decide),
   (get_next_chapter_time_correct 50 demoChapters).2.2 (by decide)
     ⟨300, 600, "Ch2"⟩ (by decide) (by decide)⟩

/-- C5: `get_previous_chapter_time` returns `t` unchanged when no chapter
start is strictly before `t`; otherwise it returns a value strictly less
than `t`, namely the start of the first chapter in reverse table order
whose start is strictly before `t` (no chapter after it in table order
qualifies). -/
theorem get_previous_chapter_time_correct (t : Rat) (cs : List Chapter) :
    ((∀ c ∈ cs, ¬ c.start_time < t) → get_previous_chapter_time t cs = t) ∧
    (∀ c ∈ cs, c.start_time < t →
      get_previous_chapter_time t cs < t ∧
      ∃ pre ch post, cs = pre ++ ch :: post ∧ ch.start_time < t ∧
        get_previous_chapter_time t cs = ch.start_time ∧
        ∀ d ∈ post, ¬ d.start_time < t) := by
  constructor
  · intro h
    exact prevScan_of_no_match t cs.reverse
      fun c hc => h c (List.mem_reverse.mp hc)
  · intro c hc hct
    obtain ⟨pre, ch, post, hrev, hch, hpre⟩ :=
      exists_first_match (fun d => t > d.start_time) cs.reverse c
        (List.mem_reverse.mpr hc) hct
    have heval : get_previous_chapter_time t cs = ch.start_time := by
      simp only [get_previous_chapter_time]
      rw [hrev]
      exact prevScan_append t pre ch post hpre hch
    have hcs : cs = post.reverse ++ ch :: pre.reverse := by
      have h0 : cs = (pre ++ ch :: post).reverse := by
        rw [← hrev, List.reverse_reverse]
      rw [h0]
      simp [List.reverse_append]
    refine ⟨by rw [heval]; exact hch, post.reverse, ch, pre.reverse, hcs, hch,
      heval, ?_⟩
    intro d hd
    exact hpre d (List.mem_reverse.mp hd)

/-- Witness for C5 at the spec's scenario: `previousChapterStart(400) = 300`
(strictly less than 400, and it is the last qualifying start in table
order), and `previousChapterStart(0) = 0` since no start is before 0. -/
theorem get_previous_chapter_time_correct_witness :
    get_previous_chapter_time 0 demoChapters = 0 ∧
    (get_previous_chapter_time 400 demoChapters < (400 : Rat) ∧
      ∃ pre ch post, demoChapters = pre ++ ch :: post ∧
        ch.start_time < (400 : Rat) ∧
        get_previous_chapter_time 400 demoChapters = ch.start_time ∧
        ∀ d ∈ post, ¬ d.start_time < (400 : Rat)) :=
  ⟨(get_previous_chapter_time_correct 0 demoChapters).1 (by decide),
   (get_previous_chapter_time_correct 400 demoChapters).2 ⟨300, 600, "Ch2"⟩
     (by decide) (by decide)⟩

lemma loop_tick_save_ok (env : SessionEnv) (file : StoreFile) (now : Rat)
    (key : Int) (so : WriteOutcome) :
    loop_tick env file now key so WriteOutcome.ok =
      Except.ok
        (⟨⟨env.title, env.author, now - env.start_time + env.playback_position,
            env.total_duration - (now - env.start_time + env.playback_position),
            env.total_duration,
            get_current_chapter (now - env.start_time + env.playback_position)
              env.chapters⟩,
          handle_playback_controls key
            (now - env.start_time + env.playback_position) env.chapters,
          ((handle_playback_controls key
              (now - env.start_time + env.playback_position) env.chapters).map
            (send_ipc_command so)).foldr (· ++ ·) []⟩,
         if pyInt (now - env.start_time + env.playback_position) % 5 = 0 then
           StoreFile.file
             (PickleData.ratData (now - env.start_time + env.playback_position))
         else file) := by
  simp only [loop_tick, save_playback_position, open_wb, pickle_dump]
  by_cases h : pyInt (now - env.start_time + env.playback_position) % 5 = 0
  · rw [if_pos h, if_pos h]
  · rw [if_neg h, if_neg h]

/-- C7: a channel write failure inside `send_ipc_command` is absorbed by its
bare `except` clause and only logged: the failing-send tick still returns
normally, publishes the same display and command list as a tick whose sends
succeed, leaves the same store file behind, and any subsequent tick (still
with failing sends) again computes and publishes state. -/
theorem send_failure_absorbed (env : SessionEnv) (file : StoreFile)
    (now : Rat) (key : Int) (m : String) :
    (∀ command : String, send_ipc_command (WriteOutcome.fail m) command =
      ["Error sending command to mpv: " ++ m]) ∧
    ∃ out1 f1 out2 f2,
      loop_tick env file now key (WriteOutcome.fail m) WriteOutcome.ok =
        Except.ok (out1, f1) ∧
      loop_tick env file now key WriteOutcome.ok WriteOutcome.ok =
        Except.ok (out2, f2) ∧
      out1.display = out2.display ∧ out1.commands = out2.commands ∧
      f1 = f2 ∧
      ∀ now2 key2, ∃ out3 f3,
        loop_tick env f1 now2 key2 (WriteOutcome.fail m) WriteOutcome.ok =
          Except.ok (out3, f3) := by
  refine ⟨fun _ => rfl, _, _, _, _,
    loop_tick_save_ok env file now key (WriteOutcome.fail m),
    loop_tick_save_ok env file now key WriteOutcome.ok,
    rfl, rfl, rfl, ?_⟩
  intro now2 key2
  exact ⟨_, _, loop_tick_save_ok env _ now2 key2 (WriteOutcome.fail m)⟩

/-- Counterexample to C3 as stated: a concrete tick in which the periodic
save triggers and the state-file write fails; `save_playback_position`
raises the `OSError` (it has no handler), `play_audiobook` does not catch
it either, so the tick evaluates to the raised exception instead of a
normal result — the loop does not reach the next tick. -/
theorem save_failure_kills_tick_cex :
    save_playback_position 10 (WriteOutcome.fail "No space left on device") =
      Except.error (PyExc.oSError "No space left on device") ∧
    loop_tick demoEnv StoreFile.absent 10 0 WriteOutcome.ok
        (WriteOutcome.fail "No space left on device") =
      Except.error (PyExc.oSError "No space left on device") := by
  refine ⟨rfl, ?_⟩
  simp only [loop_tick, save_playback_position, open_wb, pickle_dump]
  rw [if_pos (show pyInt ((10 : Rat) - demoEnv.start_time +
      demoEnv.playback_position) % 5 = 0 by
    norm_num [pyInt, demoEnv, Rat.floor_def'])]

/-- C3 as amended: a failure of the state-file write is NOT absorbed — it
propagates out of `save_playback_position` (which has no `try`/`except`)
and out of the loop body of `play_audiobook`; every tick in which the
periodic save triggers and the write fails raises instead of proceeding. -/
theorem save_failure_aborts_tick (env : SessionEnv) (file : StoreFile)
    (now : Rat) (key : Int) (so : WriteOutcome) (m : String)
    (h : pyInt (now - env.start_time + env.playback_position) % 5 = 0) :
    loop_tick env file now key so (WriteOutcome.fail m) =
      Except.error (PyExc.oSError m) := by
  simp only [loop_tick, save_playback_position, open_wb, pickle_dump]
  rw [if_pos h]

/-- Witness for the amended C3 at a concrete tick whose elapsed time is a
multiple of five seconds. -/
theorem save_failure_aborts_tick_witness :
    pyInt ((35 : Rat) - demoEnv.start_time + demoEnv.playback_position) % 5 = 0 ∧
    loop_tick demoEnv StoreFile.absent 35 0 WriteOutcome.ok
        (WriteOutcome.fail "disk full") =
      Except.error (PyExc.oSError "disk full") :=
  ⟨by norm_num [pyInt, demoEnv, Rat.floor_def'],
   save_failure_aborts_tick demoEnv StoreFile.absent 35 0 WriteOutcome.ok
     "disk full" (by norm_num [pyInt, demoEnv, Rat.floor_def'])⟩

/-- Counterexample to C2 as stated: a state file whose bytes do not
unpickle makes `load_playback_position` raise `UnpicklingError` — the
`except` clause catches only `FileNotFoundError` — rather than return the
default 0, so a deserialize error does fail the caller. -/
theorem load_corrupt_raises_cex :
    load_playback_position (StoreFile.file PickleData.garbage) =
      Except.error PyExc.unpicklingError ∧
    load_playback_position (StoreFile.file PickleData.garbage) ≠
      Except.ok 0 :=
  ⟨rfl, fun h => Except.noConfusion h⟩

/-- C2 as amended: `load_playback_position` returns the persisted offset
when valid prior state exists and returns 0 when the state file is absent
(`FileNotFoundError` is caught); any other read or deserialize error — a
corrupt pickle — propagates to the caller instead of yielding 0. -/
theorem load_playback_position_spec :
    load_playback_position StoreFile.absent = Except.ok 0 ∧
    (∀ x : Rat,
      load_playback_position (StoreFile.file (PickleData.ratData x)) =
        Except.ok x) ∧
    load_playback_position (StoreFile.file PickleData.garbage) =
      Except.error PyExc.unpicklingError :=
  ⟨rfl, fun _ => rfl, rfl⟩

/-- C8: for every offset `x >= 0`, a successful `save_playback_position(x)`
writes a pickle of `x`, and `load_playback_position` on the resulting file
returns exactly `x` (pickling a float round-trips exactly). -/
theorem save_then_load_roundtrip (x : Rat) (_hx : 0 ≤ x) :
    ∃ f : StoreFile,
      save_playback_position x WriteOutcome.ok = Except.ok f ∧
      load_playback_position f = Except.ok x :=
  ⟨StoreFile.file (pickle_dump x), rfl, rfl⟩

/-- Witness for C8 at the concrete offset 123.5 seconds. -/
theorem save_then_load_roundtrip_witness :
    (0 : Rat) ≤ 247 / 2 ∧
    ∃ f : StoreFile,
      save_playback_position (247 / 2) WriteOutcome.ok = Except.ok f ∧
      load_playback_position f = Except.ok (247 / 2) :=
  ⟨by norm_num, save_then_load_roundtrip (247 / 2) (by norm_num)⟩

/-- Counterexample to C6 as stated: for a chapter whose title happens to be
the sentinel string (the metadata default for a missing chapter title),
`get_current_chapter` at the chapter's end time misses every chapter and
returns the sentinel — which IS that chapter's title. -/
theorem locate_end_title_collision_cex :
    (⟨0, 100, "Unknown Chapter"⟩ : Chapter) ∈
      [(⟨0, 100, "Unknown Chapter"⟩ : Chapter)] ∧
    get_current_chapter (Chapter.end_time ⟨0, 100, "Unknown Chapter"⟩)
        [(⟨0, 100, "Unknown Chapter"⟩ : Chapter)] =
      Chapter.title ⟨0, 100, "Unknown Chapter"⟩ := by
  constructor
  · exact List.mem_singleton.mpr rfl
  · decide

/-- C6 as amended: boundaries are start-inclusive, end-exclusive.  The
chapter `c` itself never matches at `t = c.end` (so the resolved chapter is
never `c`), and as a title-level statement this needs the table's titles to
be distinct and distinct from the sentinel; with positive-length chapters
laid out without overlap, a timestamp equal to `c.end` resolves to a
chapter starting exactly there, or to "Unknown Chapter" when no chapter
starts there. -/
theorem locate_end_exclusive (cs : List Chapter)
    (hinj : ∀ a ∈ cs, ∀ b ∈ cs, a.title = b.title → a = b)
    (hsent : ∀ a ∈ cs, a.title ≠ "Unknown Chapter")
    (hpos : ∀ a ∈ cs, a.start_time < a.end_time)
    (hsep : cs.Pairwise (fun a b => a.end_time ≤ b.start_time)) :
    ∀ c ∈ cs,
      get_current_chapter c.end_time cs ≠ c.title ∧
      ((∃ d ∈ cs, d.start_time = c.end_time ∧
          get_current_chapter c.end_time cs = d.title) ∨
       ((∀ d ∈ cs, d.start_time ≠ c.end_time) ∧
        get_current_chapter c.end_time cs = "Unknown Chapter")) := by
  intro c hc
  by_cases hex : ∃ d ∈ cs, d.start_time ≤ c.end_time ∧ c.end_time < d.end_time
  · obtain ⟨d0, hd0, hcont⟩ := hex
    obtain ⟨pre, ch, post, heq, hch, hpre⟩ :=
      exists_first_match
        (fun d => c.end_time ≥ d.start_time ∧ c.end_time < d.end_time) cs d0
        hd0 ⟨hcont.1, hcont.2⟩
    have hval : get_current_chapter c.end_time cs = ch.title := by
      rw [heq]
      exact get_current_chapter_append _ pre ch post hpre hch
    have hchmem : ch ∈ cs := by
      rw [heq]
      exact List.mem_append_right pre (List.mem_cons_self ch post)
    have hchc : ch ≠ c := by
      intro h
      rw [h] at hch
      exact lt_irrefl _ hch.2
    have hsep' : (pre ++ ch :: post).Pairwise
        (fun a b => a.end_time ≤ b.start_time) := heq ▸ hsep
    have hchstart : ch.start_time = c.end_time := by
      have hc' : c ∈ pre ++ ch :: post := heq ▸ hc
      rcases List.mem_append.mp hc' with hcpre | hcc
      · have hrel : c.end_time ≤ ch.start_time :=
          (List.pairwise_append.mp hsep').2.2 c hcpre ch
            (List.mem_cons_self ch post)
        exact le_antisymm hch.1 hrel
      · rcases List.mem_cons.mp hcc with hceq | hcpost
        · exact absurd hceq.symm hchc
        · have hrel : ch.end_time ≤ c.start_time :=
            (List.pairwise_cons.mp
              (List.pairwise_append.mp hsep').2.1).1 c hcpost
          exact absurd
            (lt_trans (lt_of_lt_of_le hch.2 hrel) (hpos c hc))
            (lt_irrefl _)
    refine ⟨?_, Or.inl ⟨ch, hchmem, hchstart, hval⟩⟩
    rw [hval]
    intro h
    exact hchc (hinj ch hchmem c hc h)
  · have hnone : ∀ d ∈ cs,
        ¬ (c.end_time ≥ d.start_time ∧ c.end_time < d.end_time) := by
      intro d hd hcontra
      exact hex ⟨d, hd, hcontra.1, hcontra.2⟩
    have hval := get_current_chapter_of_no_match c.end_time cs hnone
    refine ⟨?_, Or.inr ⟨?_, hval⟩⟩
    · rw [hval]
      exact fun h => hsent c hc h.symm
    · intro d hd hstart
      exact hex ⟨d, hd, le_of_eq hstart, hstart ▸ hpos d hd⟩

/-- Witness for the amended C6 on the spec's scenario table at the end of
the first chapter: `locate(300)` is not "Ch1", and it resolves to a chapter
starting exactly at 300. -/
theorem locate_end_exclusive_witness :
    get_current_chapter (Chapter.end_time ⟨0, 300, "Ch1"⟩) demoChapters ≠
      Chapter.title ⟨0, 300, "Ch1"⟩ ∧
    ((∃ d ∈ demoChapters,
        d.start_time = Chapter.end_time ⟨0, 300, "Ch1"⟩ ∧
        get_current_chapter (Chapter.end_time ⟨0, 300, "Ch1"⟩) demoChapters =
          d.title) ∨
     ((∀ d ∈ demoChapters,
        d.start_time ≠ Chapter.end_time ⟨0, 300, "Ch1"⟩) ∧
      get_current_chapter (Chapter.end_time ⟨0, 300, "Ch1"⟩) demoChapters =
        "Unknown Chapter")) :=
  locate_end_exclusive demoChapters (by decide) (by decide) (by decide)
    (by decide) ⟨0, 300, "Ch1"⟩ (by decide)

/-- C9: the fixed keymap, for every current elapsed time and chapter table:
`p` sends exactly "cycle pause"; `s` sends "stop" then the
disable-screenshot command; `f` sends "seek 30 relative"; `b` sends
"seek -30 relative"; `n` and `m` send "seek <target> absolute" with the
target computed by `get_next_chapter_time` respectively
`get_previous_chapter_time` at the current elapsed time. -/
theorem keymap_encoding (t : Rat) (cs : List Chapter) :
    handle_playback_controls ('p'.toNat : Int) t cs = ["cycle pause"] ∧
    handle_playback_controls ('s'.toNat : Int) t cs =
      ["stop", "no-screenshot"] ∧
    handle_playback_controls ('f'.toNat : Int) t cs = ["seek 30 relative"] ∧
    handle_playback_controls ('b'.toNat : Int) t cs = ["seek -30 relative"] ∧
    handle_playback_controls ('n'.toNat : Int) t cs =
      ["seek " ++ toString (get_next_chapter_time t cs) ++ " absolute"] ∧
    handle_playback_controls ('m'.toNat : Int) t cs =
      ["seek " ++ toString (get_previous_chapter_time t cs) ++ " absolute"] :=
  ⟨rfl, rfl, rfl, rfl, rfl, rfl⟩

/-- C10: any key outside the mapped set `p`, `s`, `f`, `b`, `n`, `m` falls
through every branch of `handle_playback_controls`, so no command at all is
sent to the player channel on that tick. -/
theorem unmapped_key_sends_nothing (key : Int) (t : Rat) (cs : List Chapter)
    (hp : key ≠ ('p'.toNat : Int)) (hs : key ≠ ('s'.toNat : Int))
    (hf : key ≠ ('f'.toNat : Int)) (hb : key ≠ ('b'.toNat : Int))
    (hn : key ≠ ('n'.toNat : Int)) (hm : key ≠ ('m'.toNat : Int)) :
    handle_playback_controls key t cs = [] := by
  have hp' : key ≠ (112 : Int) := hp
  have hs' : key ≠ (115 : Int) := hs
  have hf' : key ≠ (102 : Int) := hf
  have hb' : key ≠ (98 : Int) := hb
  have hn' : key ≠ (110 : Int) := hn
  have hm' : key ≠ (109 : Int) := hm
  simp [handle_playback_controls, hp', hs', hf', hb', hn', hm']

/-- Witness for C10 at the unmapped key `x` (code 120). -/
theorem unmapped_key_sends_nothing_witness :
    handle_playback_controls 120 0 demoChapters = [] :=
  unmapped_key_sends_nothing 120 0 demoChapters (by decide) (by decide)
    (by decide) (by decide) (by decide) (by decide)
